import Mathlib

/-!
Verification development for the sprite animation / orientation logic of the
`r3f-isometric-sandbox-sprite-character` repository.

Two near-duplicate implementations exist in the source:
* `src/scenes/IsometricSandboxScene.tsx` — the 12×12-atlas sprite character
  (namespace `Scene` below);
* `src/components/character/SpriteCharacter.tsx` — the 8×4-atlas variant
  (namespace `Component` below).

Real-number quantities of the TypeScript code (vector components, elapsed
seconds, frames-per-second rates) are embedded as rationals `ℚ`; the code's
idealised arithmetic is what the specification describes.
-/

namespace IsoSprite

/-- Embedding of the three.js `Vector3` values the character code reads
(movement and input direction vectors). -/
structure Vec3 where
  x : ℚ
  y : ℚ
  z : ℚ
deriving DecidableEq, Repr

/-- `Vector3.lengthSq`: squared euclidean length. -/
def Vec3.lengthSq (v : Vec3) : ℚ := v.x * v.x + v.y * v.y + v.z * v.z

/-- `Vector3.dot`. -/
def Vec3.dot (a b : Vec3) : ℚ := a.x * b.x + a.y * b.y + a.z * b.z

/-- `Vector3.multiplyScalar`: scaling a vector by `k`. -/
def Vec3.smul (k : ℚ) (v : Vec3) : Vec3 := ⟨k * v.x, k * v.y, k * v.z⟩

/-- `const WORLD_FORWARD = new Vector3(0, 0, 1)` (same in both files). -/
def WORLD_FORWARD : Vec3 := ⟨0, 0, 1⟩

/-- `const WORLD_RIGHT = new Vector3(1, 0, 0)` (same in both files). -/
def WORLD_RIGHT : Vec3 := ⟨1, 0, 0⟩

/-- `type FacingDirection = "south" | "west" | "east" | "north"`. -/
inductive FacingDirection
  | south
  | west
  | east
  | north
deriving DecidableEq, Repr

/-- The numeric literal `1e-6` used as the near-zero threshold. -/
def EPSILON : ℚ := 1 / 1000000

/-- `resolveFacingDirection` — identical in both source files:
if the vector is near zero default to south, otherwise project onto the
world axes and pick the axis with the strictly larger absolute projection
(East/West only on strict inequality), signed to a cardinal direction. -/
def resolveFacingDirection (movingDir : Vec3) : FacingDirection :=
  if movingDir.lengthSq < EPSILON then
    .south
  else
    let projectionForward := movingDir.dot WORLD_FORWARD
    let projectionRight := movingDir.dot WORLD_RIGHT
    if |projectionRight| > |projectionForward| then
      if projectionRight > 0 then .east else .west
    else
      if projectionForward > 0 then .south else .north

/-- `CharacterAnimationStatus` from `bvhecctrl`: the seven statuses the
configuration tables of both implementations enumerate. -/
inductive CharacterAnimationStatus
  | IDLE
  | WALK
  | RUN
  | JUMP_START
  | JUMP_IDLE
  | JUMP_FALL
  | JUMP_LAND
deriving DecidableEq, Repr

/-- `type AnimationSequence = { frames: number[]; fps: number; loop: boolean }`. -/
structure AnimationSequence where
  frames : List ℕ
  fps : ℚ
  loop : Bool
deriving DecidableEq, Repr

/-- `type SpriteDefinition = { row; sequences }` where `sequences` is a record
with an optional entry per status and a mandatory `IDLE` entry.  The
mandatory entry is the field `IDLE`, and `sequences_IDLE` records that the
record's `IDLE` slot holds exactly it. -/
structure SpriteDefinition where
  row : ℕ
  sequences : CharacterAnimationStatus → Option AnimationSequence
  IDLE : AnimationSequence
  sequences_IDLE : sequences CharacterAnimationStatus.IDLE = some IDLE

namespace Scene

/-- `const SPRITE_COLUMNS = 12` (IsometricSandboxScene.tsx). -/
def SPRITE_COLUMNS : ℕ := 12

/-- `const SPRITE_ROWS = 12` (IsometricSandboxScene.tsx). -/
def SPRITE_ROWS : ℕ := 12

/-- The `IDLE` sequence literal used by every direction of `SPRITE_MAP`. -/
def idleSequence : AnimationSequence :=
  { frames := [6, 7, 8], fps := 3, loop := true }

/-- The per-direction `sequences` record of `SPRITE_MAP`.  In the source the
same literal table is repeated verbatim for each of the four directions, so
it is factored here and shared by the four entries of `SPRITE_MAP`. -/
def directionSequences : CharacterAnimationStatus → Option AnimationSequence
  | .IDLE => some { frames := [6, 7, 8], fps := 3, loop := true }
  | .WALK => some { frames := [0, 1, 2, 3, 4, 5], fps := 10, loop := true }
  | .RUN => some { frames := [0, 1, 2, 3, 4, 5], fps := 10, loop := true }
  | .JUMP_START => some { frames := [7], fps := 1, loop := false }
  | .JUMP_IDLE => some { frames := [7], fps := 1, loop := false }
  | .JUMP_FALL => some { frames := [7], fps := 1, loop := false }
  | .JUMP_LAND => some { frames := [7], fps := 1, loop := false }

/-- `const SPRITE_MAP: Record<FacingDirection, SpriteDefinition>`
with rows south ↦ 0, north ↦ 1, west ↦ 2, east ↦ 3. -/
def SPRITE_MAP : FacingDirection → SpriteDefinition
  | .south => { row := 0, sequences := directionSequences, IDLE := idleSequence,
                sequences_IDLE := rfl }
  | .north => { row := 1, sequences := directionSequences, IDLE := idleSequence,
                sequences_IDLE := rfl }
  | .west => { row := 2, sequences := directionSequences, IDLE := idleSequence,
               sequences_IDLE := rfl }
  | .east => { row := 3, sequences := directionSequences, IDLE := idleSequence,
               sequences_IDLE := rfl }

/-- The body of `getSequence`, generic in the sprite definition:
`definition.sequences[status] ?? definition.sequences.IDLE`. -/
def getSequenceDef (definition : SpriteDefinition)
    (status : CharacterAnimationStatus) : AnimationSequence :=
  (definition.sequences status).getD definition.IDLE

/-- `getSequence(facing, status)` from IsometricSandboxScene.tsx. -/
def getSequence (facing : FacingDirection)
    (status : CharacterAnimationStatus) : AnimationSequence :=
  getSequenceDef (SPRITE_MAP facing) status

/-- The body of the frame-advance `while` loop (IsometricSandboxScene.tsx,
section 4 of the `useFrame` callback): step to `frameIndex + 1`, and on
reaching the end of the frame list wrap to `0` when looping, else clamp to
the last index. -/
def nextFrameIndex (sequence : AnimationSequence) (frameIndex : ℕ) : ℕ :=
  let nextIndex := frameIndex + 1
  if nextIndex ≥ sequence.frames.length then
    if sequence.loop then 0 else sequence.frames.length - 1
  else
    nextIndex

/-- The `while (elapsed >= frameDuration)` loop itself.  The loop is reached
only from the branch of the callback where `sequence.fps > 0` holds, so that
fact is taken as a parameter; it makes the loop terminate (each iteration
removes `1/fps` from a quantity that must stay `≥ 1/fps` to continue). -/
def advanceWhile (sequence : AnimationSequence) (hfps : 0 < sequence.fps)
    (frameIndex : ℕ) (elapsed : ℚ) : ℕ × ℚ :=
  if h : 1 / sequence.fps ≤ elapsed then
    advanceWhile sequence hfps (nextFrameIndex sequence frameIndex)
      (elapsed - 1 / sequence.fps)
  else
    (frameIndex, elapsed)
termination_by (⌊elapsed * sequence.fps⌋).toNat
decreasing_by
  have h1 : (1 : ℚ) ≤ elapsed * sequence.fps := by
    have := (div_le_iff₀ hfps).mp h
    linarith [this]
  have hfloor : 1 ≤ ⌊elapsed * sequence.fps⌋ := by
    exact_mod_cast Int.le_floor.mpr (by exact_mod_cast h1)
  have : (elapsed - 1 / sequence.fps) * sequence.fps = elapsed * sequence.fps - 1 := by
    field_simp
  rw [this, Int.floor_sub_one]
  omega

/-- Section 4 of the `useFrame` callback (IsometricSandboxScene.tsx,
lines 512–537): static pose for single-frame or non-positive-fps sequences,
otherwise accumulate `delta` and run the catch-up `while` loop. -/
def runFrameClock (sequence : AnimationSequence) (frameIndex : ℕ)
    (elapsed delta : ℚ) : ℕ × ℚ :=
  if h : sequence.frames.length ≤ 1 ∨ sequence.fps ≤ 0 then
    (0, 0)
  else
    advanceWhile sequence (by push_neg at h; exact h.2) frameIndex
      (elapsed + delta)

/-- The per-entity mutable animation state held in refs by the component:
`directionRef`, `frameIndexRef`, `elapsedRef`, `previousStatusRef`. -/
structure PlaybackState where
  direction : FacingDirection
  frameIndex : ℕ
  elapsed : ℚ
  previousStatus : CharacterAnimationStatus
deriving DecidableEq, Repr

/-- Section 1 of the `useFrame` callback: the vector the facing direction is
resolved from — `movingDir` when it has meaningful magnitude, else
`inputDir`. -/
def chooseTargetDirection (movingDir inputDir : Vec3) : Vec3 :=
  if movingDir.lengthSq > EPSILON then movingDir else inputDir

/-- Section 1 of the `useFrame` callback: overwrite the stored direction only
when the chosen target vector has meaningful magnitude. -/
def updateFacing (movingDir inputDir : Vec3) (current : FacingDirection) :
    FacingDirection :=
  let targetDirection := chooseTargetDirection movingDir inputDir
  if targetDirection.lengthSq > EPSILON then
    resolveFacingDirection targetDirection
  else
    current

/-- Section 5 of the `useFrame` callback (IsometricSandboxScene.tsx,
lines 544–553): atlas UV offset from the frame value stored in the sequence
and the direction's row — `frameColumn = value % SPRITE_COLUMNS`,
`offsetX = frameColumn / SPRITE_COLUMNS`, `offsetY = row / SPRITE_ROWS`. -/
def spriteOffset (direction : FacingDirection) (frameValue : ℕ) : ℚ × ℚ :=
  let frameColumn := frameValue % SPRITE_COLUMNS
  let row := (SPRITE_MAP direction).row
  ((frameColumn : ℚ) / (SPRITE_COLUMNS : ℚ), (row : ℚ) / (SPRITE_ROWS : ℚ))

/-- One invocation of the `useFrame` callback of the scene's SpriteCharacter,
with the ref state passed explicitly.  Returns the new ref state and the
`(offsetX, offsetY)` pair written to `texture.offset`.  The array read
`sequence.frames[frameIndex]` is embedded with default value `0`; the
in-bounds invariant is proved separately. -/
def tick (s : PlaybackState) (movingDir inputDir : Vec3)
    (animationStatus : CharacterAnimationStatus) (delta : ℚ) :
    PlaybackState × ℚ × ℚ :=
  -- 1. determine facing direction
  let direction := updateFacing movingDir inputDir s.direction
  -- 2. handle animation state changes (reset on status change)
  let frameIndex0 := if s.previousStatus ≠ animationStatus then 0 else s.frameIndex
  let elapsed0 : ℚ := if s.previousStatus ≠ animationStatus then 0 else s.elapsed
  -- 3. current animation sequence
  let sequence := getSequence direction animationStatus
  -- 4. update animation frame
  let fe := runFrameClock sequence frameIndex0 elapsed0 delta
  -- 5. texture offset
  (⟨direction, fe.1, fe.2, animationStatus⟩,
    spriteOffset direction (sequence.frames.getD fe.1 0))

/-- A run of consecutive `useFrame` frame-clock steps with an unchanged
animation status (so the status-change reset never fires): fold the clock
over the list of per-tick `delta` values. -/
def runTicks (sequence : AnimationSequence) (frameIndex : ℕ) (elapsed : ℚ) :
    List ℚ → ℕ × ℚ
  | [] => (frameIndex, elapsed)
  | delta :: rest =>
      let fe := runFrameClock sequence frameIndex elapsed delta
      runTicks sequence fe.1 fe.2 rest

end Scene

namespace Component

/-- `const SPRITE_COLUMNS = 8` (components/character/SpriteCharacter.tsx). -/
def SPRITE_COLUMNS : ℕ := 8

/-- `const SPRITE_ROWS = 4` (components/character/SpriteCharacter.tsx). -/
def SPRITE_ROWS : ℕ := 4

/-- `const DIRECTION_ROW: Record<FacingDirection, number>`. -/
def DIRECTION_ROW : FacingDirection → ℕ
  | .south => 0
  | .west => 1
  | .east => 2
  | .north => 3

/-- Texture-offset computation of the component variant
(components/character/SpriteCharacter.tsx, lines 116–122):
`columnIndex = frameIndex % SPRITE_COLUMNS`, offset
`(columnIndex / SPRITE_COLUMNS, 1 - (rowIndex + 1) / SPRITE_ROWS)`. -/
def spriteOffset (direction : FacingDirection) (frameIndex : ℕ) : ℚ × ℚ :=
  let rowIndex := DIRECTION_ROW direction
  let columnIndex := frameIndex % SPRITE_COLUMNS
  ((columnIndex : ℚ) / (SPRITE_COLUMNS : ℚ),
    1 - ((rowIndex : ℚ) + 1) / (SPRITE_ROWS : ℚ))

end Component

/-- Modelled from the spec (section 4.3): the `mapToUV` contract —
`offsetX = (frameColumnValue mod columns) / columns` and
`offsetY = rowForDirection(direction) / rows`.  Stated generically in the
row table and atlas geometry so the two source implementations can be
compared against it. -/
def mapToUV_spec (rowFor : FacingDirection → ℕ) (columns rows : ℕ)
    (direction : FacingDirection) (frameColumnValue : ℕ) : ℚ × ℚ :=
  (((frameColumnValue % columns : ℕ) : ℚ) / (columns : ℚ),
    ((rowFor direction : ℕ) : ℚ) / (rows : ℚ))

/-- A sprite definition whose `sequences` record carries only the mandatory
`IDLE` entry; exercises the fallback path of `getSequence`. -/
def demoDefinition : SpriteDefinition :=
  { row := 0,
    sequences := fun status =>
      if status = CharacterAnimationStatus.IDLE then some Scene.idleSequence
      else none,
    IDLE := Scene.idleSequence,
    sequences_IDLE := rfl }

/-- The in-bounds invariant of the playback state: the stored frame index
addresses an existing entry of the frame list of the sequence selected by the
stored direction and the status recorded at the last tick. -/
def stateInvariant (s : Scene.PlaybackState) : Prop :=
  s.frameIndex < (Scene.getSequence s.direction s.previousStatus).frames.length

/-! ## Helper lemmas -/

theorem dot_forward (v : Vec3) : v.dot WORLD_FORWARD = v.z := by
  simp [Vec3.dot, WORLD_FORWARD]

theorem dot_right (v : Vec3) : v.dot WORLD_RIGHT = v.x := by
  simp [Vec3.dot, WORLD_RIGHT]

/-- `resolveFacingDirection` written out over the vector's components. -/
theorem resolveFacingDirection_eq (v : Vec3) :
    resolveFacingDirection v =
      if v.lengthSq < EPSILON then .south
      else if |v.x| > |v.z| then (if v.x > 0 then .east else .west)
      else (if v.z > 0 then .south else .north) := by
  simp only [resolveFacingDirection, dot_forward, dot_right]

theorem lengthSq_smul (k : ℚ) (v : Vec3) :
    (Vec3.smul k v).lengthSq = k ^ 2 * v.lengthSq := by
  simp only [Vec3.smul, Vec3.lengthSq]
  ring

/-- One pass of the frame-advance step always lands strictly inside the frame
list (for a nonempty list), whatever the incoming index. -/
theorem nextFrameIndex_lt (sequence : AnimationSequence)
    (hlen : 0 < sequence.frames.length) (i : ℕ) :
    Scene.nextFrameIndex sequence i < sequence.frames.length := by
  unfold Scene.nextFrameIndex
  by_cases hge : i + 1 ≥ sequence.frames.length
  · rw [if_pos hge]
    cases h : sequence.loop
    · rw [if_neg (by simp [h])]
      omega
    · rw [if_pos (by simp [h])]
      omega
  · rw [if_neg hge]
    omega

/-- With `loop = true` and an in-range index, the frame-advance step is
increment modulo the frame count. -/
theorem nextFrameIndex_loop (sequence : AnimationSequence)
    (hloop : sequence.loop = true) (i : ℕ) (hi : i < sequence.frames.length) :
    Scene.nextFrameIndex sequence i = (i + 1) % sequence.frames.length := by
  unfold Scene.nextFrameIndex
  by_cases hge : i + 1 ≥ sequence.frames.length
  · have hlen : i + 1 = sequence.frames.length := by omega
    simp [hge, hloop, hlen]
  · rw [if_neg hge, Nat.mod_eq_of_lt (by omega)]

/-- With `loop = false` and a nonempty frame list, the last index is a fixed
point of the frame-advance step. -/
theorem nextFrameIndex_last (sequence : AnimationSequence)
    (hloop : sequence.loop = false) (hlen : 0 < sequence.frames.length) :
    Scene.nextFrameIndex sequence (sequence.frames.length - 1) =
      sequence.frames.length - 1 := by
  unfold Scene.nextFrameIndex
  rw [if_pos (by omega), hloop]
  rfl

/-- The catch-up `while` loop runs exactly `⌊elapsed · fps⌋` iterations: it
applies the frame-advance step that many times and removes that many frame
durations from the accumulator. -/
theorem advanceWhile_spec (sequence : AnimationSequence) (hfps : 0 < sequence.fps) :
    ∀ (n : ℕ) (frameIndex : ℕ) (elapsed : ℚ),
      (⌊elapsed * sequence.fps⌋).toNat = n →
      Scene.advanceWhile sequence hfps frameIndex elapsed =
        ((Scene.nextFrameIndex sequence)^[n] frameIndex,
          elapsed - n * (1 / sequence.fps)) := by
  intro n
  induction n with
  | zero =>
    intro fi e h0
    have hguard : ¬ 1 / sequence.fps ≤ e := by
      intro hle
      have h1 : (1 : ℚ) ≤ e * sequence.fps := by
        have := (div_le_iff₀ hfps).mp hle
        linarith
      have : (1 : ℤ) ≤ ⌊e * sequence.fps⌋ := Int.le_floor.mpr (by exact_mod_cast h1)
      omega
    rw [Scene.advanceWhile, dif_neg hguard]
    simp
  | succ n ih =>
    intro fi e hsucc
    have hfloor : 1 ≤ ⌊e * sequence.fps⌋ := by omega
    have h1 : (1 : ℚ) ≤ e * sequence.fps := by
      have := Int.le_floor.mp hfloor
      exact_mod_cast this
    have hguard : 1 / sequence.fps ≤ e := by
      rw [div_le_iff₀ hfps]
      linarith
    rw [Scene.advanceWhile, dif_pos hguard]
    have hsub : (e - 1 / sequence.fps) * sequence.fps = e * sequence.fps - 1 := by
      field_simp
    have hn : (⌊(e - 1 / sequence.fps) * sequence.fps⌋).toNat = n := by
      rw [hsub, Int.floor_sub_one]
      omega
    rw [ih _ _ hn, Function.iterate_succ_apply]
    refine congrArg _ ?_
    push_cast
    ring

/-- Iterating the frame-advance step preserves in-range indices. -/
theorem iterate_nextFrameIndex_lt (sequence : AnimationSequence)
    (hlen : 0 < sequence.frames.length) :
    ∀ (n i : ℕ), i < sequence.frames.length →
      (Scene.nextFrameIndex sequence)^[n] i < sequence.frames.length := by
  intro n
  induction n with
  | zero =>
    intro i hi
    simpa using hi
  | succ n ih =>
    intro i hi
    rw [Function.iterate_succ_apply]
    exact ih _ (nextFrameIndex_lt sequence hlen _)

/-- For a looping sequence, iterating the frame-advance step `n` times from an
in-range index is addition of `n` modulo the frame count. -/
theorem iterate_nextFrameIndex_loop (sequence : AnimationSequence)
    (hloop : sequence.loop = true) (hlen : 0 < sequence.frames.length) :
    ∀ (n i : ℕ), i < sequence.frames.length →
      (Scene.nextFrameIndex sequence)^[n] i = (i + n) % sequence.frames.length := by
  intro n
  induction n with
  | zero =>
    intro i hi
    simp [Nat.mod_eq_of_lt hi]
  | succ n ih =>
    intro i hi
    rw [Function.iterate_succ_apply, nextFrameIndex_loop sequence hloop i hi,
      ih _ (Nat.mod_lt _ hlen), Nat.mod_add_mod]
    congr 1
    omega

/-- For a non-looping sequence, the last index is a fixed point of any number
of iterations of the frame-advance step. -/
theorem iterate_nextFrameIndex_last (sequence : AnimationSequence)
    (hloop : sequence.loop = false) (hlen : 0 < sequence.frames.length) :
    ∀ (n : ℕ),
      (Scene.nextFrameIndex sequence)^[n] (sequence.frames.length - 1) =
        sequence.frames.length - 1 := by
  intro n
  induction n with
  | zero => rfl
  | succ n ih =>
    rw [Function.iterate_succ_apply, nextFrameIndex_last sequence hloop hlen, ih]

/-- One frame-clock step keeps the frame index strictly inside a nonempty
frame list. -/
theorem runFrameClock_fst_lt (sequence : AnimationSequence) (frameIndex : ℕ)
    (elapsed delta : ℚ) (hlen : 0 < sequence.frames.length)
    (hfi : frameIndex < sequence.frames.length) :
    (Scene.runFrameClock sequence frameIndex elapsed delta).1 <
      sequence.frames.length := by
  unfold Scene.runFrameClock
  split
  · simpa using hlen
  · rw [advanceWhile_spec _ _ _ _ _ rfl]
    exact iterate_nextFrameIndex_lt sequence hlen _ _ hfi

/-- One frame-clock step of a non-looping sequence keeps the index frozen at
the last frame. -/
theorem runFrameClock_absorb (sequence : AnimationSequence)
    (hloop : sequence.loop = false) (hlen : 0 < sequence.frames.length)
    (hok : 0 < sequence.fps ∨ sequence.frames.length = 1)
    (elapsed delta : ℚ) :
    (Scene.runFrameClock sequence (sequence.frames.length - 1) elapsed delta).1 =
      sequence.frames.length - 1 := by
  unfold Scene.runFrameClock
  split
  · next h =>
    rcases h with h | h
    · have : sequence.frames.length = 1 := by omega
      simp [this]
    · rcases hok with hfps | h1
      · exact absurd hfps (not_lt.mpr h)
      · simp [h1]
  · rw [advanceWhile_spec _ _ _ _ _ rfl]
    exact iterate_nextFrameIndex_last sequence hloop hlen _

/-- If a sequence cannot animate (single frame or non-positive fps), every
frame-clock step forces index 0. -/
theorem runFrameClock_static (sequence : AnimationSequence)
    (hstatic : sequence.frames.length ≤ 1 ∨ sequence.fps ≤ 0)
    (frameIndex : ℕ) (elapsed delta : ℚ) :
    (Scene.runFrameClock sequence frameIndex elapsed delta).1 = 0 := by
  unfold Scene.runFrameClock
  rw [dif_pos hstatic]

/-! ## Claim theorems -/

/-- C1: for every input vector, if its squared length is below 1e-6 the
resolver returns South; otherwise, with `right = v · (+X)` and
`forward = v · (+Z)`, it returns East when `|right| > |forward|` and
`right > 0`, West when `|right| > |forward|` and `right ≤ 0`, South when
`|right| ≤ |forward|` and `forward > 0`, and North when `|right| ≤ |forward|`
and `forward ≤ 0`; exactly-equal projection magnitudes take the forward
(South/North) branch, never East/West. -/
theorem spec_c1 (v : Vec3) :
    (v.lengthSq < EPSILON → resolveFacingDirection v = .south) ∧
    (EPSILON ≤ v.lengthSq →
      (|v.dot WORLD_RIGHT| > |v.dot WORLD_FORWARD| → v.dot WORLD_RIGHT > 0 →
        resolveFacingDirection v = .east) ∧
      (|v.dot WORLD_RIGHT| > |v.dot WORLD_FORWARD| → v.dot WORLD_RIGHT ≤ 0 →
        resolveFacingDirection v = .west) ∧
      (|v.dot WORLD_RIGHT| ≤ |v.dot WORLD_FORWARD| → v.dot WORLD_FORWARD > 0 →
        resolveFacingDirection v = .south) ∧
      (|v.dot WORLD_RIGHT| ≤ |v.dot WORLD_FORWARD| → v.dot WORLD_FORWARD ≤ 0 →
        resolveFacingDirection v = .north)) ∧
    (EPSILON ≤ v.lengthSq → |v.dot WORLD_RIGHT| = |v.dot WORLD_FORWARD| →
      resolveFacingDirection v = .south ∨ resolveFacingDirection v = .north) := by
  rw [resolveFacingDirection_eq]
  simp only [dot_right, dot_forward]
  refine ⟨?_, ?_, ?_⟩
  · intro h
    rw [if_pos h]
  · intro h
    rw [if_neg (not_lt.mpr h)]
    refine ⟨?_, ?_, ?_, ?_⟩
    · intro h1 h2
      rw [if_pos h1, if_pos h2]
    · intro h1 h2
      rw [if_pos h1, if_neg (not_lt.mpr h2)]
    · intro h1 h2
      rw [if_neg (not_lt.mpr h1), if_pos h2]
    · intro h1 h2
      rw [if_neg (not_lt.mpr h1), if_neg (not_lt.mpr h2)]
  · intro h heq
    rw [if_neg (not_lt.mpr h), if_neg (not_lt.mpr (le_of_eq heq))]
    by_cases hz : v.z > 0
    · left
      rw [if_pos hz]
    · right
      rw [if_neg hz]

/-- Witness for C1: the diagonal vector `(1, 0, 1)` has exactly-equal
projection magnitudes and resolves on the forward (South/North) axis. -/
theorem spec_c1_witness :
    resolveFacingDirection ⟨1, 0, 1⟩ = .south ∨
      resolveFacingDirection ⟨1, 0, 1⟩ = .north :=
  (spec_c1 ⟨1, 0, 1⟩).2.2
    (by norm_num [Vec3.lengthSq, EPSILON])
    (by norm_num [Vec3.dot, WORLD_RIGHT, WORLD_FORWARD])

/-- C2 counterexample: the vector `(1/1000, 0, 0)` has squared length exactly
1e-6 (so it meets the claim's premise) and resolves East, but scaling it by
the positive scalar `1/2` drops the squared length below 1e-6 and the scaled
vector resolves South — refuting magnitude-independence as claimed. -/
theorem spec_c2_counterexample :
    EPSILON ≤ (Vec3.mk (1 / 1000) 0 0).lengthSq ∧ (0 : ℚ) < 1 / 2 ∧
    resolveFacingDirection (Vec3.mk (1 / 1000) 0 0) ≠
      resolveFacingDirection (Vec3.smul (1 / 2) (Vec3.mk (1 / 1000) 0 0)) := by
  refine ⟨by norm_num [Vec3.lengthSq, EPSILON], by norm_num, ?_⟩
  have h1 : resolveFacingDirection ⟨1 / 1000, 0, 0⟩ = .east := by
    rw [resolveFacingDirection_eq]
    norm_num [Vec3.lengthSq, EPSILON]
  have h2 : Vec3.smul (1 / 2) ⟨1 / 1000, 0, 0⟩ = ⟨1 / 2000, 0, 0⟩ := by
    show Vec3.mk _ _ _ = _
    norm_num
  have h3 : resolveFacingDirection ⟨1 / 2000, 0, 0⟩ = .south := by
    rw [resolveFacingDirection_eq]
    norm_num [Vec3.lengthSq, EPSILON]
  rw [h1, h2, h3]
  intro hcontra
  exact FacingDirection.noConfusion hcontra

/-- C2 amended: scale invariance holds whenever the scaled vector also clears
the 1e-6 squared-length threshold — for every vector `v` with
`|v|² ≥ 1e-6` and positive scalar `k` such that `|k·v|² ≥ 1e-6`,
`resolveFacingDirection (k·v) = resolveFacingDirection v`. -/
theorem spec_c2_amended (v : Vec3) (k : ℚ) (hk : 0 < k)
    (hv : EPSILON ≤ v.lengthSq) (hkv : EPSILON ≤ (Vec3.smul k v).lengthSq) :
    resolveFacingDirection (Vec3.smul k v) = resolveFacingDirection v := by
  rw [resolveFacingDirection_eq, resolveFacingDirection_eq]
  have hx : (Vec3.smul k v).x = k * v.x := rfl
  have hz : (Vec3.smul k v).z = k * v.z := rfl
  rw [hx, hz, if_neg (not_lt.mpr hkv), if_neg (not_lt.mpr hv)]
  have habs : (|k * v.z| < |k * v.x|) ↔ (|v.z| < |v.x|) := by
    rw [abs_mul, abs_mul, abs_of_pos hk]
    exact mul_lt_mul_left hk
  have hposx : (0 < k * v.x) ↔ (0 < v.x) := by
    constructor
    · intro h
      nlinarith
    · intro h
      positivity
  have hposz : (0 < k * v.z) ↔ (0 < v.z) := by
    constructor
    · intro h
      nlinarith
    · intro h
      positivity
  simp only [gt_iff_lt, habs, hposx, hposz]

/-- Witness for the amended C2 at `v = (1, 0, 0)`, `k = 2`. -/
theorem spec_c2_amended_witness :
    resolveFacingDirection (Vec3.smul 2 ⟨1, 0, 0⟩) =
      resolveFacingDirection ⟨1, 0, 0⟩ :=
  spec_c2_amended ⟨1, 0, 0⟩ 2 (by norm_num)
    (by norm_num [Vec3.lengthSq, EPSILON])
    (by norm_num [Vec3.smul, Vec3.lengthSq, EPSILON])

/-- C9: on every tick the controller resolves from `movingDir` when its
squared length exceeds 1e-6 and otherwise from `inputDir`; the stored facing
direction is overwritten only when the chosen vector's squared length itself
exceeds 1e-6; when both vectors are below the epsilon the stored direction is
kept unchanged; and the scene tick's stored direction is exactly this
update. -/
theorem spec_c9 (movingDir inputDir : Vec3) (current : FacingDirection)
    (s : Scene.PlaybackState) (status : CharacterAnimationStatus) (delta : ℚ) :
    (EPSILON < movingDir.lengthSq →
      Scene.chooseTargetDirection movingDir inputDir = movingDir) ∧
    (¬ EPSILON < movingDir.lengthSq →
      Scene.chooseTargetDirection movingDir inputDir = inputDir) ∧
    (EPSILON < (Scene.chooseTargetDirection movingDir inputDir).lengthSq →
      Scene.updateFacing movingDir inputDir current =
        resolveFacingDirection (Scene.chooseTargetDirection movingDir inputDir)) ∧
    (¬ EPSILON < (Scene.chooseTargetDirection movingDir inputDir).lengthSq →
      Scene.updateFacing movingDir inputDir current = current) ∧
    (movingDir.lengthSq < EPSILON → inputDir.lengthSq < EPSILON →
      Scene.updateFacing movingDir inputDir current = current) ∧
    ((Scene.tick s movingDir inputDir status delta).1.direction =
      Scene.updateFacing movingDir inputDir s.direction) := by
  refine ⟨?_, ?_, ?_, ?_, ?_, rfl⟩
  · intro h
    simp only [Scene.chooseTargetDirection, gt_iff_lt, if_pos h]
  · intro h
    simp only [Scene.chooseTargetDirection, gt_iff_lt, if_neg h]
  · intro h
    simp only [Scene.updateFacing, gt_iff_lt, if_pos h]
  · intro h
    simp only [Scene.updateFacing, gt_iff_lt, if_neg h]
  · intro hm hi
    have hchoose : Scene.chooseTargetDirection movingDir inputDir = inputDir := by
      simp only [Scene.chooseTargetDirection, gt_iff_lt, if_neg (not_lt.mpr hm.le)]
    simp only [Scene.updateFacing, gt_iff_lt, hchoose, if_neg (not_lt.mpr hi.le)]

/-- Witness for C9: a meaningful moving vector is chosen over the input
vector, and two near-zero vectors leave the stored direction unchanged. -/
theorem spec_c9_witness :
    Scene.chooseTargetDirection ⟨1, 0, 0⟩ ⟨0, 0, 1⟩ = ⟨1, 0, 0⟩ ∧
    Scene.updateFacing ⟨0, 0, 0⟩ ⟨0, 0, 0⟩ .north = .north :=
  ⟨(spec_c9 ⟨1, 0, 0⟩ ⟨0, 0, 1⟩ .north ⟨.south, 0, 0, .IDLE⟩ .IDLE 0).1
      (by norm_num [Vec3.lengthSq, EPSILON]),
    (spec_c9 ⟨0, 0, 0⟩ ⟨0, 0, 0⟩ .north ⟨.south, 0, 0, .IDLE⟩ .IDLE 0).2.2.2.2.1
      (by norm_num [Vec3.lengthSq, EPSILON])
      (by norm_num [Vec3.lengthSq, EPSILON])⟩

/-- C3: when the animation status supplied to a tick differs from the stored
`previousStatus`, that tick records the new status, and the whole tick is
equivalent to one that starts from `frameIndex = 0` and `elapsed = 0` with
the new status already recorded — the reset happens before any frame
advancement. -/
theorem spec_c3 (s : Scene.PlaybackState) (movingDir inputDir : Vec3)
    (status : CharacterAnimationStatus) (delta : ℚ)
    (h : s.previousStatus ≠ status) :
    (Scene.tick s movingDir inputDir status delta).1.previousStatus = status ∧
    Scene.tick s movingDir inputDir status delta =
      Scene.tick ⟨s.direction, 0, 0, status⟩ movingDir inputDir status delta := by
  constructor
  · rfl
  · simp [Scene.tick, h]

/-- Witness for C3 at a concrete state with accumulated time and a status
switch from IDLE to WALK. -/
theorem spec_c3_witness :
    (Scene.tick ⟨.south, 2, 1 / 2, .IDLE⟩ ⟨0, 0, 0⟩ ⟨0, 0, 0⟩ .WALK 0).1.previousStatus
      = .WALK ∧
    Scene.tick ⟨.south, 2, 1 / 2, .IDLE⟩ ⟨0, 0, 0⟩ ⟨0, 0, 0⟩ .WALK 0 =
      Scene.tick ⟨.south, 0, 0, .WALK⟩ ⟨0, 0, 0⟩ ⟨0, 0, 0⟩ .WALK 0 :=
  spec_c3 ⟨.south, 2, 1 / 2, .IDLE⟩ ⟨0, 0, 0⟩ ⟨0, 0, 0⟩ .WALK 0
    (by intro hcontra; exact CharacterAnimationStatus.noConfusion hcontra)

/-- C4: for a multi-frame looping sequence and non-negative time, one tick of
the frame clock adds `delta` to `elapsed` and advances the frame index by
exactly `⌊elapsed / (1/fps)⌋` steps modulo the frame count, keeping the
residual time; in particular with `frames = [0, 1, 2]`, `fps = 10` from index
0 and zero accumulator, a `0.3`-second delta advances exactly 3 steps and
wraps back to index 0. -/
theorem spec_c4 :
    (∀ (sequence : AnimationSequence) (frameIndex : ℕ) (elapsed delta : ℚ),
      1 < sequence.frames.length → 0 < sequence.fps → sequence.loop = true →
      frameIndex < sequence.frames.length → 0 ≤ elapsed → 0 ≤ delta →
      Scene.runFrameClock sequence frameIndex elapsed delta =
        ((frameIndex + (⌊(elapsed + delta) / (1 / sequence.fps)⌋).toNat) %
            sequence.frames.length,
          (elapsed + delta) -
            (⌊(elapsed + delta) / (1 / sequence.fps)⌋).toNat * (1 / sequence.fps))) ∧
    (Scene.runFrameClock ⟨[0, 1, 2], 10, true⟩ 0 0 (3 / 10) = (0, 0) ∧
      (⌊((0 : ℚ) + 3 / 10) / (1 / 10)⌋).toNat = 3) := by
  have hgen : ∀ (sequence : AnimationSequence) (frameIndex : ℕ) (elapsed delta : ℚ),
      1 < sequence.frames.length → 0 < sequence.fps → sequence.loop = true →
      frameIndex < sequence.frames.length → 0 ≤ elapsed → 0 ≤ delta →
      Scene.runFrameClock sequence frameIndex elapsed delta =
        ((frameIndex + (⌊(elapsed + delta) / (1 / sequence.fps)⌋).toNat) %
            sequence.frames.length,
          (elapsed + delta) -
            (⌊(elapsed + delta) / (1 / sequence.fps)⌋).toNat * (1 / sequence.fps)) := by
    intro sequence frameIndex elapsed delta hlen hfps hloop hfi _ _
    have hdiv : ∀ x : ℚ, x / (1 / sequence.fps) = x * sequence.fps := by
      intro x
      field_simp
    simp only [hdiv]
    unfold Scene.runFrameClock
    rw [dif_neg (by push_neg; exact ⟨hlen, hfps⟩)]
    rw [advanceWhile_spec _ _ _ _ _ rfl]
    rw [iterate_nextFrameIndex_loop sequence hloop (by omega) _ _ hfi]
  have h3 : Int.toNat 3 = 3 := rfl
  refine ⟨hgen, ?_, ?_⟩
  · rw [hgen ⟨[0, 1, 2], 10, true⟩ 0 0 (3 / 10) (by norm_num) (by norm_num) rfl
      (by norm_num) le_rfl (by norm_num)]
    norm_num
    rw [h3]
    norm_num
  · norm_num
    rw [h3]

/-- Witness for C4: the general tick formula applied at the claim's concrete
sequence `frames = [0, 1, 2]`, `fps = 10`, `loop = true` with a 0.3-second
delta lands back on index 0 with an empty accumulator. -/
theorem spec_c4_witness :
    Scene.runFrameClock ⟨[0, 1, 2], 10, true⟩ 0 0 (3 / 10) = (0, 0) := by
  rw [spec_c4.1 ⟨[0, 1, 2], 10, true⟩ 0 0 (3 / 10) (by norm_num) (by norm_num) rfl
    (by norm_num) le_rfl (by norm_num)]
  norm_num
  rw [show Int.toNat 3 = 3 from rfl]
  norm_num

/-- C5: for a non-looping sequence, over any run of frame-clock ticks with
non-negative deltas and unchanged status, the frame index (started at the
post-reset value 0) never exceeds `frames.length - 1`, and once it has
reached the last index it stays there for any further run of ticks. -/
theorem spec_c5 (sequence : AnimationSequence) (hloop : sequence.loop = false)
    (hlen : 1 ≤ sequence.frames.length) (elapsed : ℚ)
    (ds1 : List ℚ) (hds1 : ∀ d ∈ ds1, 0 ≤ d)
    (ds2 : List ℚ) (hds2 : ∀ d ∈ ds2, 0 ≤ d) :
    (Scene.runTicks sequence 0 elapsed ds1).1 ≤ sequence.frames.length - 1 ∧
    ((Scene.runTicks sequence 0 elapsed ds1).1 = sequence.frames.length - 1 →
      (Scene.runTicks sequence (Scene.runTicks sequence 0 elapsed ds1).1
          (Scene.runTicks sequence 0 elapsed ds1).2 ds2).1 =
        sequence.frames.length - 1) := by
  have hlenpos : 0 < sequence.frames.length := hlen
  -- boundedness along any run from an in-range index
  have hbound : ∀ (ds : List ℚ) (fi : ℕ) (e : ℚ), fi < sequence.frames.length →
      (Scene.runTicks sequence fi e ds).1 < sequence.frames.length := by
    intro ds
    induction ds with
    | nil =>
      intro fi e hfi
      simpa [Scene.runTicks] using hfi
    | cons d rest ih =>
      intro fi e hfi
      simp only [Scene.runTicks]
      exact ih _ _ (runFrameClock_fst_lt sequence fi e d hlenpos hfi)
  -- if the sequence cannot animate, the index is pinned to 0 along any run
  have hstatic : ∀ (ds : List ℚ) (e : ℚ),
      sequence.frames.length ≤ 1 ∨ sequence.fps ≤ 0 →
      (Scene.runTicks sequence 0 e ds).1 = 0 := by
    intro ds
    induction ds with
    | nil =>
      intro e _
      rfl
    | cons d rest ih =>
      intro e hs
      simp only [Scene.runTicks]
      rw [runFrameClock_static sequence hs 0 e d]
      exact ih _ hs
  -- absorption at the last index along any run, when the sequence can reach it
  have habsorb : ∀ (ds : List ℚ) (e : ℚ),
      (0 < sequence.fps ∨ sequence.frames.length = 1) →
      (Scene.runTicks sequence (sequence.frames.length - 1) e ds).1 =
        sequence.frames.length - 1 := by
    intro ds
    induction ds with
    | nil =>
      intro e _
      rfl
    | cons d rest ih =>
      intro e hok
      simp only [Scene.runTicks]
      rw [runFrameClock_absorb sequence hloop hlenpos hok e d]
      exact ih _ hok
  refine ⟨by have := hbound ds1 0 elapsed hlenpos; omega, ?_⟩
  intro hreach
  by_cases hok : 0 < sequence.fps ∨ sequence.frames.length = 1
  · rw [hreach]
    exact habsorb ds2 _ hok
  · push_neg at hok
    obtain ⟨hfps, hne⟩ := hok
    have h0 : (Scene.runTicks sequence 0 elapsed ds1).1 = 0 :=
      hstatic ds1 elapsed (Or.inr hfps)
    omega

/-- Witness for C5 at the concrete non-looping sequence
`frames = [0, 1, 2]`, `fps = 10` with one 0.3-second tick. -/
theorem spec_c5_witness :
    (Scene.runTicks ⟨[0, 1, 2], 10, false⟩ 0 0 [3 / 10]).1 ≤ 2 := by
  have h := (spec_c5 ⟨[0, 1, 2], 10, false⟩ rfl (by norm_num) 0
    [3 / 10] (by norm_num) [1 / 10] (by norm_num)).1
  simpa using h

/-- C6: the sequence lookup is total with a defined fallback — for any sprite
definition, when its `sequences` record has no entry for the requested
status the lookup returns that definition's `IDLE` sequence, when it has an
entry the lookup returns that entry, and every direction of `SPRITE_MAP`
carries an `IDLE` entry; `getSequence` is exactly this lookup applied to
`SPRITE_MAP`, so no tick fails for any status. -/
theorem spec_c6 :
    (∀ (definition : SpriteDefinition) (status : CharacterAnimationStatus),
      definition.sequences status = none →
      Scene.getSequenceDef definition status = definition.IDLE) ∧
    (∀ (definition : SpriteDefinition) (status : CharacterAnimationStatus)
      (q : AnimationSequence), definition.sequences status = some q →
      Scene.getSequenceDef definition status = q) ∧
    (∀ facing : FacingDirection,
      (Scene.SPRITE_MAP facing).sequences .IDLE =
        some ((Scene.SPRITE_MAP facing).IDLE)) ∧
    (∀ (facing : FacingDirection) (status : CharacterAnimationStatus),
      Scene.getSequence facing status =
        Scene.getSequenceDef (Scene.SPRITE_MAP facing) status) := by
  refine ⟨?_, ?_, ?_, fun _ _ => rfl⟩
  · intro d st h
    simp [Scene.getSequenceDef, h]
  · intro d st q h
    simp [Scene.getSequenceDef, h]
  · intro f
    exact (Scene.SPRITE_MAP f).sequences_IDLE

/-- Witness for C6 on a definition whose record lacks a WALK entry: the
lookup falls back to its IDLE sequence. -/
theorem spec_c6_witness :
    demoDefinition.sequences .WALK = none ∧
    Scene.getSequenceDef demoDefinition .WALK = demoDefinition.IDLE :=
  ⟨rfl, spec_c6.1 demoDefinition .WALK rfl⟩

/-- C7: under the scene's 12×12 atlas, both components of the emitted UV
offset lie in `[0, 1 - 1/12]` — for every direction and every (even
out-of-range) frame value of the offset computation, and for the offset pair
emitted by every tick. -/
theorem spec_c7 :
    (∀ (direction : FacingDirection) (frameValue : ℕ),
      0 ≤ (Scene.spriteOffset direction frameValue).1 ∧
      (Scene.spriteOffset direction frameValue).1 ≤ 1 - 1 / 12 ∧
      0 ≤ (Scene.spriteOffset direction frameValue).2 ∧
      (Scene.spriteOffset direction frameValue).2 ≤ 1 - 1 / 12) ∧
    (∀ (s : Scene.PlaybackState) (movingDir inputDir : Vec3)
      (status : CharacterAnimationStatus) (delta : ℚ),
      0 ≤ (Scene.tick s movingDir inputDir status delta).2.1 ∧
      (Scene.tick s movingDir inputDir status delta).2.1 ≤ 1 - 1 / 12 ∧
      0 ≤ (Scene.tick s movingDir inputDir status delta).2.2 ∧
      (Scene.tick s movingDir inputDir status delta).2.2 ≤ 1 - 1 / 12) := by
  have hoff : ∀ (direction : FacingDirection) (frameValue : ℕ),
      0 ≤ (Scene.spriteOffset direction frameValue).1 ∧
      (Scene.spriteOffset direction frameValue).1 ≤ 1 - 1 / 12 ∧
      0 ≤ (Scene.spriteOffset direction frameValue).2 ∧
      (Scene.spriteOffset direction frameValue).2 ≤ 1 - 1 / 12 := by
    intro direction frameValue
    have hmod : frameValue % Scene.SPRITE_COLUMNS < 12 :=
      Nat.mod_lt _ (by norm_num [Scene.SPRITE_COLUMNS])
    have hcast : ((frameValue % Scene.SPRITE_COLUMNS : ℕ) : ℚ) ≤ 11 := by
      exact_mod_cast Nat.lt_succ_iff.mp hmod
    have hx0 : (0 : ℚ) ≤ ((frameValue % Scene.SPRITE_COLUMNS : ℕ) : ℚ) := by
      positivity
    refine ⟨?_, ?_, ?_, ?_⟩
    · show (0 : ℚ) ≤ ((frameValue % Scene.SPRITE_COLUMNS : ℕ) : ℚ) / _
      positivity
    · show ((frameValue % Scene.SPRITE_COLUMNS : ℕ) : ℚ) / 12 ≤ 1 - 1 / 12
      rw [div_le_iff₀ (by norm_num : (0 : ℚ) < 12)]
      linarith
    · cases direction <;>
        norm_num [Scene.spriteOffset, Scene.SPRITE_MAP, Scene.SPRITE_ROWS]
    · cases direction <;>
        norm_num [Scene.spriteOffset, Scene.SPRITE_MAP, Scene.SPRITE_ROWS]
  refine ⟨hoff, ?_⟩
  intro s movingDir inputDir status delta
  exact hoff _ _

/-- C8 counterexample: the component (8×4) implementation does not compute
`offsetY = rowForDirection(direction) / rows` — for the south row (row 0)
its offset pair has second component `3/4`, not `0`. -/
theorem spec_c8_counterexample :
    Component.spriteOffset .south 0 ≠
      mapToUV_spec Component.DIRECTION_ROW Component.SPRITE_COLUMNS
        Component.SPRITE_ROWS .south 0 := by
  intro h
  have h2 := congrArg Prod.snd h
  simp only [Component.spriteOffset, mapToUV_spec, Component.DIRECTION_ROW,
    Component.SPRITE_COLUMNS, Component.SPRITE_ROWS] at h2
  norm_num at h2

/-- C8 amended: the scene (12×12) implementation computes
`offsetX = (value mod columns) / columns` and
`offsetY = rowForDirection(direction) / rows` with the `SPRITE_MAP` row
table; the component (8×4) implementation computes the same `offsetX` but a
bottom-origin `offsetY = (rows - 1 - rowForDirection(direction)) / rows`,
the vertical flip of its `DIRECTION_ROW` table. -/
theorem spec_c8_amended (direction : FacingDirection)
    (frameValue frameIndex : ℕ) :
    Scene.spriteOffset direction frameValue =
      mapToUV_spec (fun x => (Scene.SPRITE_MAP x).row) Scene.SPRITE_COLUMNS
        Scene.SPRITE_ROWS direction frameValue ∧
    Component.spriteOffset direction frameIndex =
      mapToUV_spec
        (fun x => Component.SPRITE_ROWS - 1 - Component.DIRECTION_ROW x)
        Component.SPRITE_COLUMNS Component.SPRITE_ROWS direction frameIndex := by
  constructor
  · rfl
  · cases direction <;>
      · simp only [Component.spriteOffset, mapToUV_spec, Component.DIRECTION_ROW,
          Component.SPRITE_COLUMNS, Component.SPRITE_ROWS]
        norm_num

/-- C10: the in-bounds invariant `frameIndex < currentSequence.frames.length`
is preserved by every tick of the scene sprite controller, for any inputs
and non-negative delta, so the array access `sequence.frames[frameIndex]`
stays in bounds. -/
theorem spec_c10 (s : Scene.PlaybackState) (movingDir inputDir : Vec3)
    (status : CharacterAnimationStatus) (delta : ℚ) (hdelta : 0 ≤ delta)
    (hs : stateInvariant s) :
    stateInvariant (Scene.tick s movingDir inputDir status delta).1 := by
  have hcongr : ∀ (d d' : FacingDirection) (st : CharacterAnimationStatus),
      Scene.getSequence d st = Scene.getSequence d' st := by
    intro d d' st
    cases d <;> cases d' <;> rfl
  have hpos : ∀ (d : FacingDirection) (st : CharacterAnimationStatus),
      0 < (Scene.getSequence d st).frames.length := by
    intro d st
    cases d <;> cases st <;> simp [Scene.getSequence, Scene.getSequenceDef,
      Scene.SPRITE_MAP, Scene.directionSequences, Scene.idleSequence]
  show (Scene.runFrameClock (Scene.getSequence
      (Scene.updateFacing movingDir inputDir s.direction) status)
      (if s.previousStatus ≠ status then 0 else s.frameIndex)
      (if s.previousStatus ≠ status then 0 else s.elapsed) delta).1 <
    (Scene.getSequence (Scene.updateFacing movingDir inputDir s.direction)
      status).frames.length
  by_cases h : s.previousStatus ≠ status
  · rw [if_pos h]
    exact runFrameClock_fst_lt _ _ _ _ (hpos _ _) (hpos _ _)
  · rw [if_neg h]
    push_neg at h
    have hs' : s.frameIndex <
        (Scene.getSequence (Scene.updateFacing movingDir inputDir s.direction)
          status).frames.length := by
      rw [← h, hcongr _ s.direction]
      exact hs
    exact runFrameClock_fst_lt _ _ _ _ (hpos _ _) hs'

/-- Witness for C10: a concrete in-range state stays in range across a tick
that switches the status from IDLE to WALK. -/
theorem spec_c10_witness :
    stateInvariant ⟨.south, 2, 0, .IDLE⟩ ∧
    stateInvariant
      (Scene.tick ⟨.south, 2, 0, .IDLE⟩ ⟨0, 0, 1⟩ ⟨0, 0, 0⟩ .WALK (1 / 60)).1 :=
  ⟨by simp [stateInvariant, Scene.getSequence, Scene.getSequenceDef,
      Scene.SPRITE_MAP, Scene.directionSequences, Scene.idleSequence],
    spec_c10 ⟨.south, 2, 0, .IDLE⟩ ⟨0, 0, 1⟩ ⟨0, 0, 0⟩ .WALK (1 / 60)
      (by norm_num)
      (by simp [stateInvariant, Scene.getSequence, Scene.getSequenceDef,
        Scene.SPRITE_MAP, Scene.directionSequences, Scene.idleSequence])⟩

end IsoSprite
